import Mathlib

/-!
Verification of the asynchronous training-job orchestrator of this
repository against its natural-language specification.

The definitions below are a shallow embedding of the Python source:

* `append_history`, `get_training_history`, `train_project`,
  `cancel_training`, `get_train_status`, `run_training_job` embed the
  corresponding functions of `ai-traineasy-mvp/packages/backend/main.py`;
* `run_training` embeds the inner `run_training` closure of
  `packages/backend/main_simple.py`;
* `MLTrainingWorkflow_run`, `validate_training_request`,
  `cleanup_activity` embed `backend/workflows/ml_training_workflow.py`;
* `pm_cleanup` embeds `ProcessManager.cleanup` of
  `packages/backend/utils/process_manager.py`.

File-system effects (PID sentinel files, history JSON files), the state
of `concurrent.futures` futures, and the exceptions a step can raise are
made explicit as data.
-/

namespace Agent

/-- One entry of a project's `train_history.json`.  `details` is present
only on the `cancellation_actioned` event, carrying the pair
`(future_cancel_returned, pid_kill_attempted)` as in the source. -/
structure HistoryEntry where
  event : String
  timestamp : Nat
  details : Option (Bool × Bool) := none
deriving DecidableEq, Repr

/-- The on-disk content of a project's `train_history.json` as seen by
`append_history` in `main.py`: the file may be missing, may fail to parse
as JSON (`json.JSONDecodeError` or any other read error), may parse as
JSON that is not a list, or may hold a parsed list of entries. -/
inductive HistFileContent where
  | missing
  | unparseable
  | notList
  | list (entries : List HistoryEntry)
deriving DecidableEq

/-- The read phase of `append_history` (main.py lines 99-112): a missing,
unparseable or non-list file resets the in-memory history to `[]`. -/
def parse_history : HistFileContent → List HistoryEntry
  | .list h => h
  | _ => []

/-- `append_history` (main.py lines 90-120): read the stored history,
append the new entry, and write the result back.  The returned list is
the full new content of `train_history.json`. -/
def append_history (c : HistFileContent) (e : HistoryEntry) : List HistoryEntry :=
  parse_history c ++ [e]

/-- The on-disk situation of `train_history.json` as seen by the
`get_training_history` endpoint: missing, raising `json.JSONDecodeError`,
raising `IOError` on open, or parsing successfully. -/
inductive HistoryFile where
  | missing
  | corrupt
  | unreadable
  | valid (entries : List HistoryEntry)
deriving DecidableEq

/-- Result of the `GET /projects/id/train/history` endpoint. -/
inductive HistoryResult where
  | notFound
  | ok (entries : List HistoryEntry)
  | serverError (detail : String)
deriving DecidableEq

/-- `get_training_history` (main.py lines 744-765).  `projectMetaExists`
models `os.path.exists("projects/" + project_id + ".json")`. -/
def get_training_history (file : HistoryFile) (projectMetaExists : Bool) :
    HistoryResult :=
  match file with
  | .missing =>
      if projectMetaExists then .ok [] else .notFound
  | .corrupt =>
      .serverError "Error reading training history: history file is corrupted."
  | .unreadable =>
      .serverError "Error reading training history: could not open history file."
  | .valid h => .ok h

/-! ### The in-memory orchestrator of `main.py`

`training_tasks : dict[str, Future]` maps a project id to the
`concurrent.futures.Future` of its most recent training submission, and
each project's history file accumulates `HistoryEntry` values.  A future
is modelled by the phase it is in. -/

/-- The observable phase of a `concurrent.futures.Future` whose callable
is `run_training_job`.  `doneRes ok` is a future whose callable returned
(`True` on exit code 0, `False` on a non-zero exit code); `doneExn` is a
future whose callable raised; `cancelled` is a future on which
`Future.cancel` succeeded before it started. -/
inductive FutureState where
  | queued
  | running
  | doneRes (ok : Bool)
  | doneExn
  | cancelled
deriving DecidableEq, Repr

/-- `Future.done()`. -/
def FutureState.isDone : FutureState → Bool
  | .queued => false
  | .running => false
  | _ => true

/-- `Future.running()`. -/
def FutureState.isRunning : FutureState → Bool
  | .running => true
  | _ => false

/-- `Future.cancel()`: succeeds (and moves the future to `cancelled`)
only while the future is still queued; returns `False` otherwise. -/
def FutureState.cancelCall : FutureState → FutureState × Bool
  | .queued => (.cancelled, true)
  | f => (f, false)

/-- The orchestrator state of `main.py`: the module-level
`training_tasks` registry plus each project's on-disk history list. -/
structure OrchState where
  tasks : String → Option FutureState
  hist : String → List HistoryEntry

/-- Point update of the `training_tasks` registry (`none` deletes). -/
def updateMap (m : String → Option FutureState) (k : String)
    (v : Option FutureState) : String → Option FutureState :=
  fun q => if q = k then v else m q

/-- Append one entry to one project's history, as `append_history` does
on a well-formed history file. -/
def appendHist (h : String → List HistoryEntry) (k : String)
    (e : HistoryEntry) : String → List HistoryEntry :=
  fun q => if q = k then h q ++ [e] else h q

theorem updateMap_self (m : String → Option FutureState) (k : String)
    (v : Option FutureState) : updateMap m k v k = v := by
  simp [updateMap]

theorem updateMap_other (m : String → Option FutureState) (k q : String)
    (v : Option FutureState) (hq : q ≠ k) : updateMap m k v q = m q := by
  simp [updateMap, hq]

theorem appendHist_other (h : String → List HistoryEntry) (k q : String)
    (e : HistoryEntry) (hq : q ≠ k) : appendHist h k e q = h q := by
  simp [appendHist, hq]

/-- Result of `POST /projects/id/train` (`train_project`, main.py lines
698-742): 404 when the project directory is missing, 409 with the
existing job's state when a non-terminal future is registered, 500 when
`executor.submit` itself raises, success otherwise. -/
inductive SubmitResult where
  | projectNotFound
  | alreadyActive (statusReported : String)
  | submitFailed
  | submitted
deriving DecidableEq, Repr

/-- `train_project` (main.py lines 698-742).  `dirExists` models
`os.path.isdir(project_dir_path)`; `execOk` models whether
`executor.submit` succeeds.  On admission the new future is registered
and a `queued` history entry is appended; on the 409 rejection nothing
is changed. -/
def train_project (s : OrchState) (pid : String) (dirExists execOk : Bool)
    (t : Nat) : SubmitResult × OrchState :=
  if dirExists then
    match s.tasks pid with
    | some f =>
      if f.isDone then
        if execOk then
          (.submitted,
            { tasks := updateMap s.tasks pid (some .queued),
              hist := appendHist s.hist pid ⟨"queued", t, none⟩ })
        else
          (.submitFailed,
            { s with hist := appendHist s.hist pid ⟨"submission_failed", t, none⟩ })
      else
        (.alreadyActive (if f.isRunning then "running" else "queued"), s)
    | none =>
      if execOk then
        (.submitted,
          { tasks := updateMap s.tasks pid (some .queued),
            hist := appendHist s.hist pid ⟨"queued", t, none⟩ })
      else
        (.submitFailed,
          { s with hist := appendHist s.hist pid ⟨"submission_failed", t, none⟩ })
  else
    (.projectNotFound, s)

/-- What the `train.pid` sentinel file holds when `cancel_training`
inspects it, and what `os.kill` does: the file may be absent, hold an
empty or non-integer string (`ValueError`), name a process that is gone
(`ProcessLookupError`), name a live process (signal delivered), or the
kill may raise some other exception. -/
inductive PidFileEnv where
  | absent
  | emptyOrInvalid
  | processGone
  | killOk
  | killError
deriving DecidableEq, Repr

/-- The value `pid_terminated_attempt` ends up with in `cancel_training`
(main.py lines 789-810): `True` after a delivered signal and after
`ProcessLookupError`, `False` otherwise. -/
def PidFileEnv.killAttempted : PidFileEnv → Bool
  | .processGone => true
  | .killOk => true
  | _ => false

/-- Result of `POST /projects/id/train/cancel`: 404 when no future is
registered, 400 when the registered future is already done, otherwise
the success payload carrying `future_cancel_call_returned` and
`pid_kill_attempted`. -/
inductive CancelResult where
  | notFound
  | alreadyCompleted
  | processed (futureCancelReturned : Bool) (pidKillAttempted : Bool)
deriving DecidableEq, Repr

/-- `cancel_training` (main.py lines 767-832).  On a done future it
appends a `cancel_attempt_on_completed_task` entry and rejects with 400.
Otherwise it calls `Future.cancel`, inspects the PID sentinel, appends a
`cancellation_actioned` entry, and deletes the registry entry whenever
the future cancel succeeded or a kill was attempted. -/
def cancel_training (s : OrchState) (pid : String) (env : PidFileEnv)
    (t : Nat) : CancelResult × OrchState :=
  match s.tasks pid with
  | none => (.notFound, s)
  | some f =>
    if f.isDone then
      (.alreadyCompleted,
        { s with
          hist := appendHist s.hist pid ⟨"cancel_attempt_on_completed_task", t, none⟩ })
    else
      let c := f.cancelCall
      let attempted := env.killAttempted
      let tasks1 := updateMap s.tasks pid (some c.1)
      let hist1 := appendHist s.hist pid
        ⟨"cancellation_actioned", t, some (c.2, attempted)⟩
      if c.2 || attempted then
        (.processed c.2 attempted,
          { tasks := updateMap tasks1 pid none, hist := hist1 })
      else
        (.processed c.2 attempted, { tasks := tasks1, hist := hist1 })

/-- Result of `GET /projects/id/train/status`. -/
inductive StatusResult where
  | notFound
  | ok (status : String)
deriving DecidableEq, Repr

/-- `get_train_status` (main.py lines 845-871).  With no registered
future the endpoint reports `not_started` (404 when the project
directory is missing too); a done future reports `finished` when its
callable returned and `failed` when it raised (a cancelled future's
`result()` also surfaces as an error); otherwise `running` or
`queued`. -/
def get_train_status (s : OrchState) (pid : String) (dirExists : Bool) :
    StatusResult :=
  match s.tasks pid with
  | none => if dirExists then .ok "not_started" else .notFound
  | some .queued => .ok "queued"
  | some .running => .ok "running"
  | some (.doneRes _) => .ok "finished"
  | some .doneExn => .ok "failed"
  | some .cancelled => .ok "failed"

/-! ### Trace semantics

The worker side of `main.py` runs `run_training_job` inside the
`ProcessPoolExecutor`: when a queued future is picked up the job appends
a `running` history entry and the future starts running; when
`run_training_job` ends it appends `finished` (exit code 0) or `failed`
(non-zero exit code or exception) and the future becomes done.  These
worker-side transitions, together with the HTTP endpoints, form the
events a run of the server interleaves.  History appends are keyed by
project id on disk, so they happen even when the registry entry was
deleted by a cancel. -/

/-- One observable event of the orchestrator: an HTTP submit, an HTTP
cancel, the pool starting a queued future, or `run_training_job`
finishing with exit code `some rc` or an exception (`none`). -/
inductive Ev where
  | submit (pid : String) (dirExists execOk : Bool) (t : Nat)
  | cancel (pid : String) (env : PidFileEnv) (t : Nat)
  | start (pid : String) (t : Nat)
  | complete (pid : String) (out : Option Int) (t : Nat)

/-- The pool picks up a queued future: `run_training_job` appends a
`running` history entry and the future starts.  A future that is not
queued (already started, done, or cancelled) is never started. -/
def futureStartEv (s : OrchState) (pid : String) (t : Nat) : OrchState :=
  match s.tasks pid with
  | some .queued =>
      { tasks := updateMap s.tasks pid (some .running),
        hist := appendHist s.hist pid ⟨"running", t, none⟩ }
  | _ => s

/-- `run_training_job` terminates (main.py lines 664-686): it appends
`finished` on exit code 0 and `failed` otherwise, directly to the
project's history file; when the registry still holds the running
future, that future becomes done (`doneRes` on return, `doneExn` on a
raised exception). -/
def completeEv (s : OrchState) (pid : String) (out : Option Int) (t : Nat) :
    OrchState :=
  let entry : HistoryEntry :=
    match out with
    | some rc => if rc = 0 then ⟨"finished", t, none⟩ else ⟨"failed", t, none⟩
    | none => ⟨"failed", t, none⟩
  let s1 : OrchState := { s with hist := appendHist s.hist pid entry }
  match s.tasks pid with
  | some .running =>
      { s1 with
        tasks := updateMap s1.tasks pid
          (some (match out with
                 | some rc => .doneRes (decide (rc = 0))
                 | none => .doneExn)) }
  | _ => s1

/-- One event applied to the orchestrator state. -/
def stepEv (s : OrchState) (e : Ev) : OrchState :=
  match e with
  | .submit pid d eo t => (train_project s pid d eo t).2
  | .cancel pid env t => (cancel_training s pid env t).2
  | .start pid t => futureStartEv s pid t
  | .complete pid out t => completeEv s pid out t

/-- A finite trace of events applied in order. -/
def runEvs (s : OrchState) (evs : List Ev) : OrchState :=
  evs.foldl stepEv s

/-- `evs` contains no submission for key `k` (resubmission under the
same key mints a fresh job, so claims about "the same job" range over
traces without one). -/
def noSubmitFor (k : String) (evs : List Ev) : Bool :=
  evs.all (fun e =>
    match e with
    | .submit pid _ _ _ => decide (pid ≠ k)
    | _ => true)

/-- The empty server state: no registered tasks, no history. -/
def s0 : OrchState := { tasks := fun _ => none, hist := fun _ => [] }

/-- A state whose only registered future, for project `p1`, is running. -/
def sRun : OrchState :=
  { tasks := fun q => if q = "p1" then some .running else none,
    hist := fun q => if q = "p1" then
      [⟨"queued", 0, none⟩, ⟨"running", 1, none⟩] else [] }

/-- A state whose only registered future, for project `p1`, is done
(its callable returned `True`). -/
def sDone : OrchState :=
  { tasks := fun q => if q = "p1" then some (.doneRes true) else none,
    hist := fun q => if q = "p1" then
      [⟨"queued", 0, none⟩, ⟨"running", 1, none⟩, ⟨"finished", 2, none⟩] else [] }

/-! ### The external-process runner and its PID sentinel file -/

/-- The file-system footprint of one `run_training_job` run: whether the
project's `train.pid` sentinel exists, and the history events this run
has appended so far. -/
structure FsState where
  pidFile : Bool
  events : List String
deriving DecidableEq, Repr

/-- Append one history event name. -/
def fsAppend (fs : FsState) (e : String) : FsState :=
  { fs with events := fs.events ++ [e] }

/-- Write the subprocess pid into `train.pid`. -/
def writePid (fs : FsState) : FsState := { fs with pidFile := true }

/-- The `finally` clause of `run_training_job` and the tail of
`run_training`: `if os.path.exists(pid_path): os.remove(pid_path)`. -/
def removePidIfExists (fs : FsState) : FsState :=
  if fs.pidFile then { fs with pidFile := false } else fs

/-- How one run of the external training process goes: an exception
before the subprocess is spawned (so the pid was never written), an
exception after the pid was written (for example during `proc.wait`), or
a normal subprocess exit with code `rc`. -/
inductive RunOutcome where
  | exnBeforeSpawn
  | exnAfterSpawn
  | exited (rc : Int)
deriving DecidableEq, Repr

/-- How `run_training_job` ends: re-raising the exception for the pool
to record, or returning `True` (exit code 0) / `False` (non-zero). -/
inductive RunEnd where
  | raisedExn
  | returned (ok : Bool)
deriving DecidableEq, Repr

/-- `run_training_job` (main.py lines 620-692): append `running`, spawn
the subprocess and write its pid into `train.pid`, wait; append
`finished` on exit code 0, `failed` on a non-zero code or an exception
(which is re-raised); the `finally` clause removes the pid file when it
exists. -/
def run_training_job (fs0 : FsState) (o : RunOutcome) : FsState × RunEnd :=
  let fs1 := fsAppend fs0 "running"
  let step : FsState × RunEnd :=
    match o with
    | .exnBeforeSpawn => (fsAppend fs1 "failed", .raisedExn)
    | .exnAfterSpawn => (fsAppend (writePid fs1) "failed", .raisedExn)
    | .exited rc =>
        let fsw := writePid fs1
        if rc = 0 then (fsAppend fsw "finished", .returned true)
        else (fsAppend fsw "failed", .returned false)
  (removePidIfExists step.1, step.2)

/-- The file-system footprint of the `main_simple.py` training thread:
the `train.pid` sentinel and the project's `status` field in its
metadata JSON. -/
structure SimpleFs where
  pidFile : Bool
  status : String
deriving DecidableEq, Repr

/-- How one run of `run_training` (main_simple.py) goes; `sw` is whether
the project-metadata status write succeeds (in the source that write is
wrapped in its own try/except and its failure is only logged). -/
inductive SimpleOutcome where
  | exnBeforeSpawn (sw : Bool)
  | exnAfterSpawn (sw : Bool)
  | exited (rc : Int) (sw : Bool)
deriving DecidableEq, Repr

/-- `run_training` (main_simple.py lines 359-414): spawn and write the
pid; on exit update the project status to `completed`/`failed` and
remove the pid file; on an exception set the status to `failed` (best
effort) and remove the pid file in the handler's `finally`. -/
def run_training (fs0 : SimpleFs) (o : SimpleOutcome) : SimpleFs :=
  match o with
  | .exnBeforeSpawn sw =>
      let fs1 := if sw then { fs0 with status := "failed" } else fs0
      if fs1.pidFile then { fs1 with pidFile := false } else fs1
  | .exnAfterSpawn sw =>
      let fsw : SimpleFs := { fs0 with pidFile := true }
      let fs1 := if sw then { fsw with status := "failed" } else fsw
      if fs1.pidFile then { fs1 with pidFile := false } else fs1
  | .exited rc sw =>
      let fsw : SimpleFs := { fs0 with pidFile := true }
      let fs1 := if sw then
        { fsw with status := if rc = 0 then "completed" else "failed" }
        else fsw
      if fs1.pidFile then { fs1 with pidFile := false } else fs1

/-! ### The Temporal-style workflow of `ml_training_workflow.py` -/

/-- The six pipeline steps of `MLTrainingWorkflow.run`. -/
inductive StepName where
  | validate
  | prepare
  | loadData
  | train
  | evaluate
  | persist
deriving DecidableEq, Repr

/-- The pipeline order fixed by the body of `MLTrainingWorkflow.run`. -/
def pipelineOrder : List StepName :=
  [.validate, .prepare, .loadData, .train, .evaluate, .persist]

/-- The final outcome of each activity, after Temporal's per-activity
retries: `.error e` when the activity (finally) raised with message `e`,
`.ok` when it returned.  `validateRes` additionally carries the `valid`
flag of the returned validation dict. -/
structure ActivityOracle where
  validateRes : Except String Bool
  prepareRes : Except String Unit
  loadRes : Except String Unit
  trainRes : Except String Unit
  evalRes : Except String Unit
  persistRes : Except String Unit

/-- The dict returned by the `cleanup_on_failure` activity. -/
structure CleanupOutcome where
  cleanup_completed : Bool
  error : String
deriving DecidableEq, Repr

/-- `cleanup_on_failure` (ml_training_workflow.py lines 548-579) as the
workflow sees it: the glob/rmtree body may raise (`internal = .error e`)
but the activity catches every exception and returns a
`cleanup_completed = False` dict instead of raising, so the activity
itself never raises (it is always `Except.ok`). -/
def cleanup_activity (err : String) (internal : Except String Unit) :
    Except String CleanupOutcome :=
  match internal with
  | .ok _ => .ok { cleanup_completed := true, error := err }
  | .error e => .ok { cleanup_completed := false, error := e }

/-- The dict `MLTrainingWorkflow.run` returns, together with the list of
pipeline steps whose activities were executed, in execution order. -/
structure WorkflowResult where
  status : String
  error : Option String
  executed : List StepName
deriving DecidableEq, Repr

/-- The failure path of `MLTrainingWorkflow.run` (lines 154-174): run
the `cleanup_on_failure` activity, then return the failed dict carrying
the original error.  Had the cleanup activity raised, the exception
would escape the `except` handler and the workflow itself would fail
with the cleanup error instead — the `workflow_error` branch. -/
def failurePath (e : String) (cEnv : Except String Unit)
    (ex : List StepName) : WorkflowResult :=
  match cleanup_activity e cEnv with
  | .ok _ => { status := "failed", error := some e, executed := ex }
  | .error ce => { status := "workflow_error", error := some ce, executed := ex }

/-- `MLTrainingWorkflow.run` (ml_training_workflow.py lines 49-174): the
six activities awaited in order inside one `try`; a raised activity or
an invalid validation result jumps to the `except` handler, which runs
cleanup and returns the failed dict; full success returns the completed
dict. -/
def MLTrainingWorkflow_run (o : ActivityOracle) (cEnv : Except String Unit) :
    WorkflowResult :=
  match o.validateRes with
  | .error e => failurePath e cEnv [.validate]
  | .ok valid =>
    if valid then
      match o.prepareRes with
      | .error e => failurePath e cEnv [.validate, .prepare]
      | .ok _ =>
        match o.loadRes with
        | .error e => failurePath e cEnv [.validate, .prepare, .loadData]
        | .ok _ =>
          match o.trainRes with
          | .error e => failurePath e cEnv [.validate, .prepare, .loadData, .train]
          | .ok _ =>
            match o.evalRes with
            | .error e =>
                failurePath e cEnv [.validate, .prepare, .loadData, .train, .evaluate]
            | .ok _ =>
              match o.persistRes with
              | .error e => failurePath e cEnv pipelineOrder
              | .ok _ =>
                { status := "completed", error := none, executed := pipelineOrder }
    else
      failurePath "Training request validation failed" cEnv [.validate]

/-- Modelled from the claim's wording, for comparison with
`MLTrainingWorkflow_run`: the index of the first step whose final
outcome is a failure (an activity error, or for `validate` a returned
`valid = False`), `none` when every step succeeds. -/
def specFirstFailure (o : ActivityOracle) : Option Nat :=
  match o.validateRes with
  | .error _ => some 0
  | .ok valid =>
    if valid then
      match o.prepareRes with
      | .error _ => some 1
      | .ok _ =>
        match o.loadRes with
        | .error _ => some 2
        | .ok _ =>
          match o.trainRes with
          | .error _ => some 3
          | .ok _ =>
            match o.evalRes with
            | .error _ => some 4
            | .ok _ =>
              match o.persistRes with
              | .error _ => some 5
              | .ok _ => none
    else some 0

/-- `terminate()` on a tracked process inside `ProcessManager.cleanup`:
it may raise. -/
def pm_terminate (raises : Bool) : Except String Unit :=
  if raises then .error "terminate failed" else .ok ()

/-- `ProcessManager.cleanup` (process_manager.py lines 59-65): pop the
project's entry; `terminate()` is wrapped in try/except and its failure
is only logged, so cleanup itself never raises. -/
def pm_cleanup (active : List String) (pid : String) (raises : Bool) :
    Except String (List String) :=
  if pid ∈ active then
    match pm_terminate raises with
    | .ok _ => .ok (active.filter (fun q => q != pid))
    | .error _ => .ok (active.filter (fun q => q != pid))
  else .ok active

/-! ### `validate_training_request` -/

/-- The fields of `TrainingRequest` that validation inspects.  Python
floats carry exact values compared with exact order comparisons only,
so they are embedded as rationals. -/
structure TrainingRequest where
  epochs : Int
  batch_size : Int
  learning_rate : ℚ
  validation_split : ℚ
  dataset_path : String
  model_type : String

/-- The `supported_models` list of `validate_training_request`. -/
def supported_models : List String :=
  ["regression", "classification", "neural_network"]

/-- The validation dict: the `valid` flag and the `errors` list. -/
structure ValidationOutcome where
  valid : Bool
  errors : List String
deriving DecidableEq, Repr

/-- `validate_training_request` (ml_training_workflow.py lines 177-215).
`pathExists` models `os.path.exists`.  Each violated condition appends
one message, in source order; `valid` is `len(errors) == 0`. -/
def validate_training_request (pathExists : String → Bool)
    (r : TrainingRequest) : ValidationOutcome :=
  let errors : List String :=
    (if r.epochs ≤ 0 ∨ r.epochs > 1000 then
      ["Epochs must be between 1 and 1000"] else []) ++
    (if r.batch_size ≤ 0 ∨ r.batch_size > 1000 then
      ["Batch size must be between 1 and 1000"] else []) ++
    (if r.learning_rate ≤ 0 ∨ r.learning_rate > 1 then
      ["Learning rate must be between 0 and 1"] else []) ++
    (if r.validation_split ≤ 0 ∨ r.validation_split ≥ 1 then
      ["Validation split must be between 0 and 1"] else []) ++
    (if ¬ pathExists r.dataset_path then
      ["Dataset path does not exist: " ++ r.dataset_path] else []) ++
    (if r.model_type ∉ supported_models then
      ["Unsupported model type: " ++ r.model_type] else [])
  { valid := errors.isEmpty, errors := errors }

/-! ## Claim theorems -/

/-- Claim C5, counterexample: on a history file that exists but does not
parse as JSON, `get_training_history` does not degrade to a truncated
history — it fails with an HTTP 500 server error. -/
theorem corrupt_history_tolerated_cex :
    get_training_history .corrupt true =
      .serverError "Error reading training history: history file is corrupted." := by
  rfl

/-- Claim C5 (amended): a history file that exists but does not parse as
JSON makes `get_training_history` fail with an HTTP 500 server error
(`corrupted` for a parse failure, `could not open` for a read failure);
only a missing file degrades, to an empty history when the project
exists and a 404 otherwise; a parseable file is returned in full. -/
theorem corrupt_history_server_error (metaExists : Bool)
    (h : List HistoryEntry) :
    get_training_history .corrupt metaExists =
      .serverError "Error reading training history: history file is corrupted." ∧
    get_training_history .unreadable metaExists =
      .serverError "Error reading training history: could not open history file." ∧
    get_training_history .missing true = .ok [] ∧
    get_training_history .missing false = .notFound ∧
    get_training_history (.valid h) metaExists = .ok h := by
  refine ⟨rfl, rfl, rfl, rfl, rfl⟩

/-- Claim C6: when the stored history file holds a parsed list of
entries, one call to `append_history` stores exactly that list with the
one new entry added at the end — the existing entries are kept
unchanged, in order, and nothing is dropped. -/
theorem append_history_append_only (h : List HistoryEntry) (e : HistoryEntry) :
    append_history (.list h) e = h ++ [e] ∧
    (append_history (.list h) e).take h.length = h ∧
    (append_history (.list h) e).length = h.length + 1 ∧
    (append_history (.list h) e).getLast? = some e := by
  refine ⟨rfl, ?_, by simp [append_history, parse_history], ?_⟩
  · simp [append_history, parse_history]
  · simp [append_history, parse_history]

/-- Claim C7: whatever way a run of the external training process ends —
exit code 0, a non-zero exit code, or an exception before or after the
subprocess was spawned — the per-project PID sentinel file does not
exist after the run terminates, in both the `main.py` runner and the
`main_simple.py` runner. -/
theorem pid_sentinel_removed (fs : FsState) (o : RunOutcome)
    (sfs : SimpleFs) (so : SimpleOutcome) :
    (run_training_job fs o).1.pidFile = false ∧
    (run_training sfs so).pidFile = false := by
  constructor
  · cases o with
    | exnBeforeSpawn =>
        simp [run_training_job, removePidIfExists, fsAppend, writePid]
        split <;> simp_all
    | exnAfterSpawn =>
        simp [run_training_job, removePidIfExists, fsAppend, writePid]
    | exited rc =>
        by_cases h : rc = 0 <;>
          simp [run_training_job, removePidIfExists, fsAppend, writePid, h]
  · cases so with
    | exnBeforeSpawn sw =>
        by_cases h : sw <;> simp [run_training, h] <;> split <;> simp_all
    | exnAfterSpawn sw =>
        by_cases h : sw <;> simp [run_training, h]
    | exited rc sw =>
        by_cases h : sw <;> simp [run_training, h]

/-- Claim C1: single-flight admission.  When a non-terminal future is
registered for a project, a second submission is rejected with a 409
that reports the existing job's current state (`running` or `queued`)
and changes nothing — no second active record is created.  When the
registered future is terminal, or none is registered, the submission is
admitted: a fresh queued future is registered for that key only and a
`queued` history entry is appended. -/
theorem single_flight_admission (s : OrchState) (pid : String) (t : Nat) :
    (∀ f, s.tasks pid = some f → f.isDone = false →
      train_project s pid true true t =
        (.alreadyActive (if f.isRunning then "running" else "queued"), s)) ∧
    (∀ f, s.tasks pid = some f → f.isDone = true →
      ∃ s', train_project s pid true true t = (.submitted, s') ∧
        s'.tasks pid = some .queued ∧
        (∀ k, k ≠ pid → s'.tasks k = s.tasks k) ∧
        s'.hist pid = s.hist pid ++ [⟨"queued", t, none⟩]) ∧
    (s.tasks pid = none →
      ∃ s', train_project s pid true true t = (.submitted, s') ∧
        s'.tasks pid = some .queued ∧
        (∀ k, k ≠ pid → s'.tasks k = s.tasks k) ∧
        s'.hist pid = s.hist pid ++ [⟨"queued", t, none⟩]) := by
  refine ⟨?_, ?_, ?_⟩
  · intro f hf hd
    simp [train_project, hf, hd]
  · intro f hf hd
    refine ⟨{ tasks := updateMap s.tasks pid (some .queued),
              hist := appendHist s.hist pid ⟨"queued", t, none⟩ },
      by simp [train_project, hf, hd], updateMap_self _ _ _,
      fun k hk => updateMap_other _ _ _ _ hk, by simp [appendHist]⟩
  · intro hf
    refine ⟨{ tasks := updateMap s.tasks pid (some .queued),
              hist := appendHist s.hist pid ⟨"queued", t, none⟩ },
      by simp [train_project, hf], updateMap_self _ _ _,
      fun k hk => updateMap_other _ _ _ _ hk, by simp [appendHist]⟩

/-- Witness for C1: in a state whose future for `p1` is running, a
submission for `p1` is rejected as already active with the state
`running` and changes nothing; in a state whose future for `p1` is
done, a submission is admitted and registers a queued future. -/
theorem single_flight_admission_witness :
    train_project sRun "p1" true true 3 = (.alreadyActive "running", sRun) ∧
    (train_project sDone "p1" true true 3).1 = .submitted ∧
    (train_project sDone "p1" true true 3).2.tasks "p1" = some .queued := by
  refine ⟨?_, ?_⟩
  · exact (single_flight_admission sRun "p1" 3).1 .running rfl rfl
  · obtain ⟨s', he, hq, -, -⟩ :=
      (single_flight_admission sDone "p1" 3).2.1 (.doneRes true) rfl rfl
    rw [he]
    exact ⟨rfl, hq⟩

/-- Claim C2, counterexample: cancelling the already-terminal job of
`p1` does report the already-completed rejection, but it appends a new
`cancel_attempt_on_completed_task` entry to the history — the history
grows by one entry, where the claim says no entry is appended. -/
theorem cancel_terminal_no_append_cex :
    (cancel_training sDone "p1" .absent 7).1 = .alreadyCompleted ∧
    ((cancel_training sDone "p1" .absent 7).2.hist "p1").length
      = (sDone.hist "p1").length + 1 := by
  exact ⟨rfl, rfl⟩

/-- Claim C2 (amended): cancelling a job whose future is already done
reports the already-completed rejection (HTTP 400) and leaves the task
registry unchanged, but appends one `cancel_attempt_on_completed_task`
history entry; a second cancel reports the same rejection and appends
one more such entry (so the call is idempotent in its report but not in
the history). -/
theorem cancel_terminal_appends_history (s : OrchState) (pid : String)
    (f : FutureState) (env env' : PidFileEnv) (t t' : Nat)
    (hf : s.tasks pid = some f) (hd : f.isDone = true) :
    (cancel_training s pid env t).1 = .alreadyCompleted ∧
    (cancel_training s pid env t).2.tasks = s.tasks ∧
    (cancel_training s pid env t).2.hist pid =
      s.hist pid ++ [⟨"cancel_attempt_on_completed_task", t, none⟩] ∧
    (cancel_training (cancel_training s pid env t).2 pid env' t').1 =
      .alreadyCompleted ∧
    (cancel_training (cancel_training s pid env t).2 pid env' t').2.hist pid =
      s.hist pid ++ [⟨"cancel_attempt_on_completed_task", t, none⟩,
                     ⟨"cancel_attempt_on_completed_task", t', none⟩] := by
  have hr1 : cancel_training s pid env t =
      (.alreadyCompleted,
       { s with hist :=
          (appendHist s.hist pid ⟨"cancel_attempt_on_completed_task", t, none⟩) }) := by
    simp [cancel_training, hf, hd]
  have hr2 : cancel_training
      { s with hist :=
          (appendHist s.hist pid ⟨"cancel_attempt_on_completed_task", t, none⟩) }
      pid env' t' =
      (.alreadyCompleted,
       { s with hist :=
          (appendHist
            (appendHist s.hist pid ⟨"cancel_attempt_on_completed_task", t, none⟩)
            pid ⟨"cancel_attempt_on_completed_task", t', none⟩) }) := by
    simp [cancel_training, hf, hd]
  refine ⟨by rw [hr1], by rw [hr1], by rw [hr1]; simp [appendHist],
    by rw [hr1]; rw [hr2], ?_⟩
  rw [hr1]
  rw [hr2]
  simp [appendHist]

/-- Witness for C2 (amended): two successive cancels on the terminal job
of `p1` both report already-completed and leave the history with two new
`cancel_attempt_on_completed_task` entries. -/
theorem cancel_terminal_appends_history_witness :
    (cancel_training sDone "p1" .absent 7).1 = .alreadyCompleted ∧
    (cancel_training (cancel_training sDone "p1" .absent 7).2 "p1" .killOk 8).1 =
      .alreadyCompleted ∧
    (cancel_training (cancel_training sDone "p1" .absent 7).2 "p1" .killOk 8).2.hist "p1" =
      sDone.hist "p1" ++ [⟨"cancel_attempt_on_completed_task", 7, none⟩,
                          ⟨"cancel_attempt_on_completed_task", 8, none⟩] := by
  obtain ⟨a, -, -, b, c⟩ :=
    cancel_terminal_appends_history sDone "p1" (.doneRes true) .absent .killOk 7 8
      rfl rfl
  exact ⟨a, b, c⟩

/-- The race trace of claim C3: submit `p1`, let it start running,
cancel it (signal delivered), then the underlying process nevertheless
exits with code 0 and `run_training_job` reports the late success. -/
def raceTrace : List Ev :=
  [.submit "p1" true true 1, .start "p1" 2, .cancel "p1" .killOk 3,
   .complete "p1" (some 0) 4]

/-- Claim C3, counterexample: after the cancel/complete race the late
success is not discarded — the history ends with a `finished` entry —
and the final recorded state is not `Cancelled`: the registry entry was
deleted, so the status query reports `not_started`. -/
theorem cancellation_wins_cex :
    (runEvs s0 raceTrace).hist "p1" =
      [⟨"queued", 1, none⟩, ⟨"running", 2, none⟩,
       ⟨"cancellation_actioned", 3, some (false, true)⟩,
       ⟨"finished", 4, none⟩] ∧
    get_train_status (runEvs s0 raceTrace) "p1" true = .ok "not_started" := by
  exact ⟨rfl, rfl⟩

/-- Claim C3 (amended): cancelling a running job returns
`processed false true` when a kill was attempted and deletes the task
registry entry; if the underlying process later reports success anyway,
that late success is recorded — a `finished` entry is appended to the
history — and a subsequent status query reports `not_started` (the
pre-submission state), not a cancelled terminal state. -/
theorem cancel_race_records_late_success (s : OrchState) (k : String)
    (env : PidFileEnv) (t t' : Nat)
    (hr : s.tasks k = some .running) (ha : env.killAttempted = true) :
    (cancel_training s k env t).1 = .processed false true ∧
    (cancel_training s k env t).2.tasks k = none ∧
    (cancel_training s k env t).2.hist k =
      s.hist k ++ [⟨"cancellation_actioned", t, some (false, true)⟩] ∧
    (completeEv (cancel_training s k env t).2 k (some 0) t').tasks k = none ∧
    (completeEv (cancel_training s k env t).2 k (some 0) t').hist k =
      s.hist k ++ [⟨"cancellation_actioned", t, some (false, true)⟩,
                   ⟨"finished", t', none⟩] ∧
    get_train_status (completeEv (cancel_training s k env t).2 k (some 0) t')
      k true = .ok "not_started" := by
  have hc : cancel_training s k env t =
      (.processed false true,
       { tasks := updateMap (updateMap s.tasks k (some .running)) k none,
         hist := (appendHist s.hist k
           ⟨"cancellation_actioned", t, some (false, true)⟩) }) := by
    simp [cancel_training, hr, ha, FutureState.cancelCall, FutureState.isDone]
  have htk : (cancel_training s k env t).2.tasks k = none := by
    rw [hc]; exact updateMap_self _ _ _
  have hco : completeEv (cancel_training s k env t).2 k (some 0) t' =
      { (cancel_training s k env t).2 with
        hist := (appendHist (cancel_training s k env t).2.hist k
          ⟨"finished", t', none⟩) } := by
    simp [completeEv, htk]
  refine ⟨by rw [hc], htk, by rw [hc]; simp [appendHist], ?_, ?_, ?_⟩
  · rw [hco]; exact htk
  · rw [hco, hc]; simp [appendHist]
  · rw [hco]
    simp [get_train_status, htk]

/-- Witness for C3 (amended): from the running state of `p1`, a cancel
with a delivered kill followed by a late successful exit leaves a
`finished` entry at the end of the history and status `not_started`. -/
theorem cancel_race_records_late_success_witness :
    (cancel_training sRun "p1" .killOk 5).1 = .processed false true ∧
    (completeEv (cancel_training sRun "p1" .killOk 5).2 "p1" (some 0) 6).hist "p1" =
      sRun.hist "p1" ++ [⟨"cancellation_actioned", 5, some (false, true)⟩,
                         ⟨"finished", 6, none⟩] ∧
    get_train_status (completeEv (cancel_training sRun "p1" .killOk 5).2 "p1" (some 0) 6)
      "p1" true = .ok "not_started" := by
  obtain ⟨a, -, -, -, b, c⟩ :=
    cancel_race_records_late_success sRun "p1" .killOk 5 6 rfl rfl
  exact ⟨a, b, c⟩

theorem train_project_tasks_other (s : OrchState) (pid : String)
    (d eo : Bool) (t : Nat) (k : String) (hk : k ≠ pid) :
    (train_project s pid d eo t).2.tasks k = s.tasks k := by
  unfold train_project
  rcases h : s.tasks pid with - | g
  · cases d <;> cases eo <;> simp [h, updateMap_other _ _ _ _ hk]
  · cases d <;> cases eo <;> by_cases hg : g.isDone = true <;>
      simp [h, hg, updateMap_other _ _ _ _ hk]

theorem cancel_training_tasks_other (s : OrchState) (pid : String)
    (env : PidFileEnv) (t : Nat) (k : String) (hk : k ≠ pid) :
    (cancel_training s pid env t).2.tasks k = s.tasks k := by
  unfold cancel_training
  rcases h : s.tasks pid with - | g
  · simp [h]
  · by_cases hg : g.isDone = true
    · simp [h, hg]
    · by_cases hc : g.cancelCall.2 = true ∨ env.killAttempted = true <;>
        simp [h, hg, hc, updateMap_other _ _ _ _ hk]

theorem futureStartEv_tasks_other (s : OrchState) (pid : String) (t : Nat)
    (k : String) (hk : k ≠ pid) :
    (futureStartEv s pid t).tasks k = s.tasks k := by
  unfold futureStartEv
  rcases h : s.tasks pid with - | g
  · simp [h]
  · cases g <;> simp [h, updateMap_other _ _ _ _ hk]

theorem completeEv_tasks_other (s : OrchState) (pid : String)
    (out : Option Int) (t : Nat) (k : String) (hk : k ≠ pid) :
    (completeEv s pid out t).tasks k = s.tasks k := by
  unfold completeEv
  rcases h : s.tasks pid with - | g
  · simp [h]
  · cases g <;> simp [h, updateMap_other _ _ _ _ hk]

theorem cancel_training_tasks_done (s : OrchState) (k : String)
    (f : FutureState) (env : PidFileEnv) (t : Nat)
    (hf : s.tasks k = some f) (hd : f.isDone = true) :
    (cancel_training s k env t).2.tasks = s.tasks := by
  simp [cancel_training, hf, hd]

theorem futureStartEv_tasks_done (s : OrchState) (k : String) (t : Nat)
    (f : FutureState) (hf : s.tasks k = some f) (hd : f.isDone = true) :
    (futureStartEv s k t).tasks k = some f := by
  cases f with
  | queued => simp [FutureState.isDone] at hd
  | running => simp [FutureState.isDone] at hd
  | doneRes ok => simp [futureStartEv, hf]
  | doneExn => simp [futureStartEv, hf]
  | cancelled => simp [futureStartEv, hf]

theorem completeEv_tasks_done (s : OrchState) (k : String)
    (out : Option Int) (t : Nat) (f : FutureState)
    (hf : s.tasks k = some f) (hd : f.isDone = true) :
    (completeEv s k out t).tasks k = some f := by
  cases f with
  | queued => simp [FutureState.isDone] at hd
  | running => simp [FutureState.isDone] at hd
  | doneRes ok => simp [completeEv, hf]
  | doneExn => simp [completeEv, hf]
  | cancelled => simp [completeEv, hf]

theorem stepEv_preserves_done (s : OrchState) (k : String) (f : FutureState)
    (e : Ev) (hf : s.tasks k = some f) (hd : f.isDone = true)
    (he : (match e with
           | Ev.submit pid _ _ _ => decide (pid ≠ k)
           | _ => true) = true) :
    (stepEv s e).tasks k = some f := by
  cases e with
  | submit pid d eo t =>
      have hk : k ≠ pid := Ne.symm (of_decide_eq_true he)
      simp only [stepEv]
      rw [train_project_tasks_other s pid d eo t k hk]
      exact hf
  | cancel pid env t =>
      by_cases hkp : k = pid
      · subst hkp
        simp only [stepEv]
        rw [cancel_training_tasks_done s k f env t hf hd]
        exact hf
      · simp only [stepEv]
        rw [cancel_training_tasks_other s pid env t k hkp]
        exact hf
  | start pid t =>
      by_cases hkp : k = pid
      · subst hkp
        simp only [stepEv]
        exact futureStartEv_tasks_done s k t f hf hd
      · simp only [stepEv]
        rw [futureStartEv_tasks_other s pid t k hkp]
        exact hf
  | complete pid out t =>
      by_cases hkp : k = pid
      · subst hkp
        simp only [stepEv]
        exact completeEv_tasks_done s k out t f hf hd
      · simp only [stepEv]
        rw [completeEv_tasks_other s pid out t k hkp]
        exact hf

theorem runEvs_preserves_done (s : OrchState) (k : String) (f : FutureState)
    (evs : List Ev) (hf : s.tasks k = some f) (hd : f.isDone = true)
    (hns : noSubmitFor k evs = true) :
    (runEvs s evs).tasks k = some f := by
  induction evs generalizing s with
  | nil => exact hf
  | cons e rest ih =>
      simp only [noSubmitFor, List.all_cons, Bool.and_eq_true] at hns
      exact ih (stepEv s e) (stepEv_preserves_done s k f e hf hd hns.1) hns.2

/-- Claim C4, counterexample: after submitting `p1` the status query
reports `queued`; processing a cancel deletes the registry entry, and
the next status query regresses to the pre-submission report
`not_started`. -/
theorem cancel_status_regress_cex :
    get_train_status (runEvs s0 [.submit "p1" true true 1]) "p1" true
      = .ok "queued" ∧
    get_train_status
      (runEvs s0 [.submit "p1" true true 1, .cancel "p1" .absent 2]) "p1" true
      = .ok "not_started" := by
  exact ⟨rfl, rfl⟩

/-- Claim C4 (amended): once `get_train_status` has reported a terminal
status (`finished` or `failed`) for the current job of a key, any later
sequence of events that contains no resubmission for that key — cancels,
pool starts, job completions, submissions for other keys — leaves a
later `get_train_status` reporting the same terminal status.  (Without
the no-resubmission restriction the terminal report stands for a new
job; and cancelling a still-queued or running job deletes its registry
entry, regressing the report to `not_started` — see the
counterexample.) -/
theorem terminal_status_stable (s : OrchState) (k : String) (st : String)
    (d : Bool) (evs : List Ev)
    (hterm : get_train_status s k d = .ok st)
    (hst : st = "finished" ∨ st = "failed")
    (hns : noSubmitFor k evs = true) :
    get_train_status (runEvs s evs) k d = .ok st := by
  rcases hf : s.tasks k with - | f
  · exfalso
    simp only [get_train_status, hf] at hterm
    rcases hst with h | h <;> subst h <;> cases d <;> simp at hterm
  · have hd : f.isDone = true := by
      cases f with
      | queued =>
          exfalso
          simp only [get_train_status, hf] at hterm
          rcases hst with h | h <;> subst h <;>
            exact absurd hterm (by decide)
      | running =>
          exfalso
          simp only [get_train_status, hf] at hterm
          rcases hst with h | h <;> subst h <;>
            exact absurd hterm (by decide)
      | doneRes ok => rfl
      | doneExn => rfl
      | cancelled => rfl
    have hpres := runEvs_preserves_done s k f evs hf hd hns
    have hsame : get_train_status (runEvs s evs) k d = get_train_status s k d := by
      cases f with
      | queued => simp [FutureState.isDone] at hd
      | running => simp [FutureState.isDone] at hd
      | doneRes ok => simp [get_train_status, hpres, hf]
      | doneExn => simp [get_train_status, hpres, hf]
      | cancelled => simp [get_train_status, hpres, hf]
    rw [hsame, hterm]

/-- Witness for C4 (amended): after the job of `p1` is done with a
`finished` report, a cancel attempt followed by a stray completion
report leaves the status query still reporting `finished`. -/
theorem terminal_status_stable_witness :
    get_train_status
      (runEvs sDone [.cancel "p1" .killOk 5, .complete "p1" (some 0) 6])
      "p1" true = .ok "finished" :=
  terminal_status_stable sDone "p1" "finished" true
    [.cancel "p1" .killOk 5, .complete "p1" (some 0) 6]
    rfl (Or.inl rfl) rfl

/-- Claim C8: `MLTrainingWorkflow.run` executes the six steps in exactly
the order validate, prepare, load-data, train, evaluate, persist: the
executed steps are always the prefix of `pipelineOrder` ending at the
first failing step (all six when none fails), each step running only
after all earlier ones succeeded, and the returned status is `failed`
exactly when some step finally failed and `completed` otherwise. -/
theorem pipeline_ordered_fail_fast (o : ActivityOracle)
    (cEnv : Except String Unit) :
    (MLTrainingWorkflow_run o cEnv).executed =
      (match specFirstFailure o with
       | none => pipelineOrder
       | some i => pipelineOrder.take (i + 1)) ∧
    (MLTrainingWorkflow_run o cEnv).status =
      (match specFirstFailure o with
       | none => "completed"
       | some _ => "failed") := by
  obtain ⟨v, p, l, tr, ev, pr⟩ := o
  rcases v with e | v
  · cases cEnv <;>
      simp [MLTrainingWorkflow_run, specFirstFailure, failurePath,
        cleanup_activity, pipelineOrder]
  · cases v <;> rcases p with ep | - <;> rcases l with el | - <;>
      rcases tr with et | - <;> rcases ev with ee | - <;>
      rcases pr with es | - <;> cases cEnv <;>
      simp [MLTrainingWorkflow_run, specFirstFailure, failurePath,
        cleanup_activity, pipelineOrder]

theorem failurePath_eq (e : String) (c : Except String Unit)
    (ex : List StepName) :
    failurePath e c ex = { status := "failed", error := some e, executed := ex } := by
  cases c <;> rfl

/-- Claim C9: failure cleanup never masks the original failure.  The
`cleanup_on_failure` activity never raises, whatever its internal
glob/rmtree operations do; `ProcessManager.cleanup` never raises,
whether or not `terminate()` does; and the workflow result — in
particular the reported error — is independent of how cleanup went, so
a failed run always reports the original step failure and the
cleanup-raised branch (`workflow_error`) is never taken. -/
theorem cleanup_never_masks_failure (e : String)
    (internal c1 c2 : Except String Unit) (o : ActivityOracle)
    (a : List String) (q : String) (b : Bool) :
    (∃ r, cleanup_activity e internal = Except.ok r) ∧
    (∃ l, pm_cleanup a q b = Except.ok l) ∧
    MLTrainingWorkflow_run o c1 = MLTrainingWorkflow_run o c2 ∧
    (MLTrainingWorkflow_run o c1).status ≠ "workflow_error" := by
  refine ⟨?_, ?_, ?_, ?_⟩
  · cases internal <;> exact ⟨_, rfl⟩
  · by_cases hq : q ∈ a
    · refine ⟨a.filter (fun x => x != q), ?_⟩
      cases b <;> simp [pm_cleanup, pm_terminate, hq]
    · exact ⟨a, by simp [pm_cleanup, hq]⟩
  · obtain ⟨v, p, l, tr, ev, pr⟩ := o
    rcases v with e' | v
    · simp [MLTrainingWorkflow_run, failurePath_eq]
    · cases v <;> rcases p with ep | - <;> rcases l with el | - <;>
        rcases tr with et | - <;> rcases ev with ee | - <;>
        rcases pr with es | - <;>
        simp [MLTrainingWorkflow_run, failurePath_eq]
  · obtain ⟨v, p, l, tr, ev, pr⟩ := o
    rcases v with e' | v
    · simp [MLTrainingWorkflow_run, failurePath_eq]
    · cases v <;> rcases p with ep | - <;> rcases l with el | - <;>
        rcases tr with et | - <;> rcases ev with ee | - <;>
        rcases pr with es | - <;>
        simp [MLTrainingWorkflow_run, failurePath_eq]

theorem int_bounds_iff (x : Int) :
    (1 ≤ x ∧ x ≤ 1000) ↔ ¬(x ≤ 0 ∨ x > 1000) := by
  omega

theorem rat_bounds_iff (x : ℚ) : (0 < x ∧ x ≤ 1) ↔ ¬(x ≤ 0 ∨ x > 1) := by
  rw [not_or, not_le, not_lt]

theorem rat_split_iff (x : ℚ) : (0 < x ∧ x < 1) ↔ ¬(x ≤ 0 ∨ x ≥ 1) := by
  rw [not_or, not_le, not_le]

/-- Claim C10: `validate_training_request` returns `valid = true` iff
all of 1 ≤ epochs ≤ 1000, 1 ≤ batch_size ≤ 1000, 0 < learning_rate ≤ 1,
0 < validation_split < 1, the dataset path exists, and the model type is
supported hold; the errors list is empty iff `valid = true`; and the
errors list carries exactly one message per violated condition. -/
theorem validate_request_postcondition (pathExists : String → Bool)
    (r : TrainingRequest) :
    ((validate_training_request pathExists r).valid = true ↔
      (1 ≤ r.epochs ∧ r.epochs ≤ 1000 ∧ 1 ≤ r.batch_size ∧
       r.batch_size ≤ 1000 ∧ 0 < r.learning_rate ∧ r.learning_rate ≤ 1 ∧
       0 < r.validation_split ∧ r.validation_split < 1 ∧
       pathExists r.dataset_path = true ∧
       r.model_type ∈ supported_models)) ∧
    ((validate_training_request pathExists r).errors = [] ↔
      (validate_training_request pathExists r).valid = true) ∧
    (validate_training_request pathExists r).errors.length =
      ((if r.epochs ≤ 0 ∨ r.epochs > 1000 then 1 else 0) +
       (if r.batch_size ≤ 0 ∨ r.batch_size > 1000 then 1 else 0) +
       (if r.learning_rate ≤ 0 ∨ r.learning_rate > 1 then 1 else 0) +
       (if r.validation_split ≤ 0 ∨ r.validation_split ≥ 1 then 1 else 0) +
       (if ¬ pathExists r.dataset_path then 1 else 0) +
       (if r.model_type ∉ supported_models then 1 else 0)) := by
  have hempty : (validate_training_request pathExists r).errors = [] ↔
      (¬(r.epochs ≤ 0 ∨ r.epochs > 1000) ∧
       ¬(r.batch_size ≤ 0 ∨ r.batch_size > 1000) ∧
       ¬(r.learning_rate ≤ 0 ∨ r.learning_rate > 1) ∧
       ¬(r.validation_split ≤ 0 ∨ r.validation_split ≥ 1) ∧
       pathExists r.dataset_path = true ∧
       r.model_type ∈ supported_models) := by
    simp [validate_training_request, List.append_eq_nil, not_or]
  refine ⟨?_, ?_, ?_⟩
  · have hv : (validate_training_request pathExists r).valid =
        (validate_training_request pathExists r).errors.isEmpty := rfl
    rw [hv, List.isEmpty_iff, hempty, ← int_bounds_iff, ← int_bounds_iff,
      ← rat_bounds_iff, ← rat_split_iff]
    tauto
  · have hv : (validate_training_request pathExists r).valid =
        (validate_training_request pathExists r).errors.isEmpty := rfl
    rw [hv, List.isEmpty_iff]
  · by_cases h1 : r.epochs ≤ 0 ∨ r.epochs > 1000 <;>
    by_cases h2 : r.batch_size ≤ 0 ∨ r.batch_size > 1000 <;>
    by_cases h3 : r.learning_rate ≤ 0 ∨ r.learning_rate > 1 <;>
    by_cases h4 : r.validation_split ≤ 0 ∨ r.validation_split ≥ 1 <;>
    by_cases h5 : pathExists r.dataset_path = true <;>
    by_cases h6 : r.model_type ∈ supported_models <;>
    simp [validate_training_request, h1, h2, h3, h4, h5, h6]

end Agent
